import Mathlib

/-!
# Verification of the rtty-transmitter core

Shallow embedding of the RTTY transmitter firmware
(`src/rtty-transmitter/rtty-transmitter.ino`, `src/unnamed/part_001`):
the Baudot codec (`getBaudotCode`), the bitstream generator
(`generateBaudotString`), the DDS phase-increment computation in `exec`
(AT+send branch), the EEPROM playback interrupt handler
(`ISR(TIMER2_COMPA_vect)`) with its AT+play start sequence, and the
timer-ownership protocol between the 80 kHz DDS interrupt (TIMSK1/OCIE1A)
and the 8 kHz playback interrupt (TIMSK2/OCIE2A).

Bit strings built by the firmware as Arduino `String`s of the characters
`'0'`/`'1'` are embedded as `List Char` of those same characters; the empty
Arduino `String` (the "not found" result of `getBaudotCode`) is the empty
list.
-/

set_option autoImplicit false
set_option maxRecDepth 8000

/-- Shift mode of the Baudot codec.  The source passes the mode as the
string `"LTRS"` or `"FIGS"`; it is embedded as a two-element enumeration. -/
inductive Mode : Type
  | LTRS : Mode
  | FIGS : Mode
deriving DecidableEq, Repr

/-- `const String baudotLTRS = "11111";` -/
def baudotLTRS : List Char := ['1', '1', '1', '1', '1']

/-- `const String baudotFIGS = "11011";` -/
def baudotFIGS : List Char := ['1', '1', '0', '1', '1']

/-- `String getBaudotCode(char c, String mode)` — the two `switch`
statements of the source, one per mode.  An absent character yields `[]`
(the source's empty string). -/
def getBaudotCode (c : Char) (mode : Mode) : List Char :=
  match mode with
  | Mode.LTRS =>
    match c with
    | 'A' => ['1', '1', '0', '0', '0']
    | 'B' => ['1', '0', '0', '1', '1']
    | 'C' => ['0', '1', '1', '1', '0']
    | 'D' => ['1', '0', '0', '1', '0']
    | 'E' => ['1', '0', '0', '0', '0']
    | 'F' => ['1', '0', '1', '1', '0']
    | 'G' => ['0', '1', '0', '1', '1']
    | 'H' => ['0', '0', '1', '0', '1']
    | 'I' => ['0', '1', '1', '0', '0']
    | 'J' => ['1', '1', '0', '1', '0']
    | 'K' => ['1', '1', '1', '1', '0']
    | 'L' => ['0', '1', '0', '0', '1']
    | 'M' => ['0', '0', '1', '1', '1']
    | 'N' => ['0', '0', '1', '1', '0']
    | 'O' => ['0', '0', '0', '1', '1']
    | 'P' => ['0', '1', '1', '0', '1']
    | 'Q' => ['1', '1', '1', '0', '1']
    | 'R' => ['0', '1', '0', '1', '0']
    | 'S' => ['1', '0', '1', '0', '0']
    | 'T' => ['0', '0', '0', '0', '1']
    | 'U' => ['1', '1', '1', '0', '0']
    | 'V' => ['0', '1', '1', '1', '1']
    | 'W' => ['1', '1', '0', '0', '1']
    | 'X' => ['1', '0', '1', '1', '1']
    | 'Y' => ['1', '0', '1', '0', '1']
    | 'Z' => ['1', '0', '0', '0', '1']
    | '\n' => ['0', '1', '0', '0', '0']
    | ' ' => ['0', '0', '1', '0', '0']
    | '\r' => ['0', '0', '0', '1', '0']
    | _ => []
  | Mode.FIGS =>
    match c with
    | '-' => ['1', '1', '0', '0', '0']
    | '?' => ['1', '0', '0', '1', '1']
    | ':' => ['0', '1', '1', '1', '0']
    | '$' => ['1', '0', '0', '1', '0']
    | '3' => ['1', '0', '0', '0', '0']
    | '!' => ['1', '0', '1', '1', '0']
    | '&' => ['0', '1', '0', '1', '1']
    | '#' => ['0', '0', '1', '0', '1']
    | '8' => ['0', '1', '1', '0', '0']
    | '4' => ['0', '1', '0', '1', '0']
    | '(' => ['1', '1', '1', '1', '0']
    | ')' => ['0', '1', '0', '0', '1']
    | '.' => ['0', '0', '1', '1', '1']
    | ',' => ['0', '0', '1', '1', '0']
    | '9' => ['0', '0', '0', '1', '1']
    | '0' => ['0', '1', '1', '0', '1']
    | '1' => ['1', '1', '1', '0', '1']
    | '\'' => ['0', '1', '0', '1', '0']
    | '5' => ['0', '0', '0', '0', '1']
    | '7' => ['1', '1', '1', '0', '0']
    | ';' => ['0', '1', '1', '1', '1']
    | '2' => ['1', '1', '0', '0', '1']
    | '/' => ['1', '0', '1', '1', '1']
    | '6' => ['1', '0', '1', '0', '1']
    | '"' => ['1', '0', '0', '0', '1']
    | '\n' => ['0', '1', '0', '0', '0']
    | ' ' => ['0', '0', '1', '0', '0']
    | '\r' => ['0', '0', '0', '1', '0']
    | _ => []

/-- `String start_bit = "0";` -/
def start_bit : List Char := ['0']

/-- `String stop_bit = "11";` -/
def stop_bit : List Char := ['1', '1']

/-- One framed symbol: `start_bit + code + stop_bit`, the string appended
by each `bits += ...` statement of `generateBaudotString`. -/
def frame (code : List Char) : List Char := start_bit ++ code ++ stop_bit

/-- `text[0]`: Arduino `String::operator[]` yields the NUL character for an
out-of-range index, so indexing an empty message gives `'\0'`. -/
def headChar (text : List Char) : Char := text.headD (Char.ofNat 0)

/-- `String currentMode = getBaudotCode(text[0], "LTRS") != "" ? "LTRS" : "FIGS";` -/
def initialMode (text : List Char) : Mode :=
  if getBaudotCode (headChar text) Mode.LTRS ≠ [] then Mode.LTRS else Mode.FIGS

/-- The framed shift symbol for a mode: the `bits += start_bit + baudotLTRS
+ stop_bit` / `... baudotFIGS ...` appends of the source. -/
def shiftFrame : Mode → List Char
  | Mode.LTRS => frame baudotLTRS
  | Mode.FIGS => frame baudotFIGS

/-- The `for (int i = 0; i < text.length(); i++)` loop of
`generateBaudotString`, with the mutable `currentMode` threaded as an
argument.  Each appended framed symbol becomes one list element; the flat
bit string is the concatenation of the elements. -/
def genLoop : List Char → Mode → List (List Char)
  | [], _ => []
  | c :: rest, mode =>
    if getBaudotCode c Mode.LTRS ≠ [] then
      if mode ≠ Mode.LTRS then
        frame baudotLTRS :: frame (getBaudotCode c Mode.LTRS) :: genLoop rest Mode.LTRS
      else
        frame (getBaudotCode c Mode.LTRS) :: genLoop rest Mode.LTRS
    else if getBaudotCode c Mode.FIGS ≠ [] then
      if mode ≠ Mode.FIGS then
        frame baudotFIGS :: frame (getBaudotCode c Mode.FIGS) :: genLoop rest Mode.FIGS
      else
        frame (getBaudotCode c Mode.FIGS) :: genLoop rest Mode.FIGS
    else
      genLoop rest mode

/-- The full plan as a list of framed symbols: CR, LF, the initial shift
symbol, then the loop output.  Mirrors the `bits += ...` appends of
`generateBaudotString` in order. -/
def genFrames (text : List Char) : List (List Char) :=
  frame (getBaudotCode '\r' Mode.LTRS) ::
  frame (getBaudotCode '\n' Mode.LTRS) ::
  shiftFrame (initialMode text) ::
  genLoop text (initialMode text)

/-- `String generateBaudotString(String text)` — the returned flat bit
string, the concatenation of the appended framed symbols. -/
def generateBaudotString (text : List Char) : List Char :=
  (genFrames text).flatten

example : initialMode ['H'] = Mode.LTRS := by decide
example : initialMode ['1'] = Mode.FIGS := by decide
example : initialMode [] = Mode.FIGS := by decide
example : generateBaudotString [] =
    ['0', '0', '0', '0', '1', '0', '1', '1',
     '0', '0', '1', '0', '0', '0', '1', '1',
     '0', '1', '1', '0', '1', '1', '1', '1'] := by decide

/-- Splits a flat bit string into consecutive 8-bit groups (the framed
symbols of a transmission plan); a final group shorter than 8 bits is kept
whole. -/
def chunks8 : List Char → List (List Char)
  | [] => []
  | a :: b :: c :: d :: e :: f :: g :: h :: rest =>
      [a, b, c, d, e, f, g, h] :: chunks8 rest
  | l => [l]

/-- A framed symbol is a shift symbol iff it is the framed LTRS or FIGS
shift code. -/
def isShiftFrame (s : List Char) : Bool :=
  s = frame baudotLTRS || s = frame baudotFIGS

theorem getBaudotCode_nil_or_len5 (c : Char) (m : Mode) :
    getBaudotCode c m = [] ∨ (getBaudotCode c m).length = 5 := by
  unfold getBaudotCode
  split <;> split <;> simp

theorem getBaudotCode_len5 {c : Char} {m : Mode} (h : getBaudotCode c m ≠ []) :
    (getBaudotCode c m).length = 5 :=
  (getBaudotCode_nil_or_len5 c m).resolve_left h

theorem getBaudotCode_ne_shift (c : Char) (m : Mode) :
    getBaudotCode c m ≠ baudotLTRS ∧ getBaudotCode c m ≠ baudotFIGS := by
  unfold getBaudotCode
  split <;> (try split) <;> decide

theorem frame_length (code : List Char) : (frame code).length = code.length + 3 := by
  simp [frame, start_bit, stop_bit]

/-- Every symbol emitted by the encoding loop is the frame of a 5-bit code,
and that code is either a shift code or a table entry. -/
theorem genLoop_mem_shape {s : List Char} :
    ∀ (text : List Char) (m : Mode), s ∈ genLoop text m →
    ∃ code, code.length = 5 ∧ s = frame code ∧
      (code = baudotLTRS ∨ code = baudotFIGS ∨ ∃ c m', code = getBaudotCode c m') := by
  intro text
  induction text with
  | nil => intro m h; simp [genLoop] at h
  | cons c rest ih =>
    intro m h
    by_cases hL : getBaudotCode c Mode.LTRS ≠ []
    · by_cases hm : m ≠ Mode.LTRS
      · simp only [genLoop, if_pos hL, if_pos hm, List.mem_cons] at h
        rcases h with h | h | h
        · exact ⟨baudotLTRS, by decide, h, Or.inl rfl⟩
        · exact ⟨_, getBaudotCode_len5 hL, h, Or.inr (Or.inr ⟨c, Mode.LTRS, rfl⟩)⟩
        · exact ih Mode.LTRS h
      · simp only [genLoop, if_pos hL, if_neg hm, List.mem_cons] at h
        rcases h with h | h
        · exact ⟨_, getBaudotCode_len5 hL, h, Or.inr (Or.inr ⟨c, Mode.LTRS, rfl⟩)⟩
        · exact ih Mode.LTRS h
    · by_cases hF : getBaudotCode c Mode.FIGS ≠ []
      · by_cases hm : m ≠ Mode.FIGS
        · simp only [genLoop, if_neg hL, if_pos hF, if_pos hm, List.mem_cons] at h
          rcases h with h | h | h
          · exact ⟨baudotFIGS, by decide, h, Or.inr (Or.inl rfl)⟩
          · exact ⟨_, getBaudotCode_len5 hF, h, Or.inr (Or.inr ⟨c, Mode.FIGS, rfl⟩)⟩
          · exact ih Mode.FIGS h
        · simp only [genLoop, if_neg hL, if_pos hF, if_neg hm, List.mem_cons] at h
          rcases h with h | h
          · exact ⟨_, getBaudotCode_len5 hF, h, Or.inr (Or.inr ⟨c, Mode.FIGS, rfl⟩)⟩
          · exact ih Mode.FIGS h
      · simp only [genLoop, if_neg hL, if_neg hF] at h
        exact ih m h

theorem genFrames_mem_shape {s : List Char} (text : List Char)
    (h : s ∈ genFrames text) :
    ∃ code, code.length = 5 ∧ s = frame code ∧
      (code = baudotLTRS ∨ code = baudotFIGS ∨ ∃ c m', code = getBaudotCode c m') := by
  simp only [genFrames, List.mem_cons] at h
  rcases h with h | h | h | h
  · exact ⟨getBaudotCode '\r' Mode.LTRS, by decide, h, Or.inr (Or.inr ⟨_, _, rfl⟩)⟩
  · exact ⟨getBaudotCode '\n' Mode.LTRS, by decide, h, Or.inr (Or.inr ⟨_, _, rfl⟩)⟩
  · cases hm : initialMode text <;> rw [hm] at h
    · exact ⟨baudotLTRS, by decide, h, Or.inl rfl⟩
    · exact ⟨baudotFIGS, by decide, h, Or.inr (Or.inl rfl)⟩
  · exact genLoop_mem_shape text (initialMode text) h

theorem genFrames_mem_length8 {s : List Char} (text : List Char)
    (h : s ∈ genFrames text) : s.length = 8 := by
  obtain ⟨code, hlen, rfl, -⟩ := genFrames_mem_shape text h
  rw [frame_length, hlen]

theorem chunks8_append8 (s t : List Char) (hs : s.length = 8) :
    chunks8 (s ++ t) = s :: chunks8 t := by
  match s with
  | [] | [a] | [a, b] | [a, b, c] | [a, b, c, d] | [a, b, c, d, e]
  | [a, b, c, d, e, f] | [a, b, c, d, e, f, g] => simp at hs
  | a :: b :: c :: d :: e :: f :: g :: h :: rest =>
    have hrest : rest = [] := by
      simp only [List.length_cons] at hs
      exact List.eq_nil_of_length_eq_zero (by omega)
    subst hrest
    simp [chunks8]

theorem chunks8_flatten :
    ∀ L : List (List Char), (∀ s ∈ L, s.length = 8) → chunks8 L.flatten = L := by
  intro L
  induction L with
  | nil => intro _; simp [chunks8]
  | cons s L' ih =>
    intro h
    rw [List.flatten_cons, chunks8_append8 s _ (h s (List.mem_cons_self _ _))]
    rw [ih fun x hx => h x (List.mem_cons_of_mem _ hx)]

theorem chunks8_generateBaudotString (text : List Char) :
    chunks8 (generateBaudotString text) = genFrames text :=
  chunks8_flatten _ fun _ hs => genFrames_mem_length8 text hs

/-- The value of the mutable `currentMode` variable after the encoding loop
has scanned a list of characters, starting from a given mode. -/
def modeAfter : List Char → Mode → Mode
  | [], m => m
  | c :: rest, m =>
    if getBaudotCode c Mode.LTRS ≠ [] then modeAfter rest Mode.LTRS
    else if getBaudotCode c Mode.FIGS ≠ [] then modeAfter rest Mode.FIGS
    else modeAfter rest m

theorem genLoop_append :
    ∀ (xs ys : List Char) (m : Mode),
    genLoop (xs ++ ys) m = genLoop xs m ++ genLoop ys (modeAfter xs m) := by
  intro xs
  induction xs with
  | nil => intro ys m; simp [genLoop, modeAfter]
  | cons c rest ih =>
    intro ys m
    by_cases hL : getBaudotCode c Mode.LTRS ≠ []
    · by_cases hm : m ≠ Mode.LTRS <;>
        simp [genLoop, modeAfter, hL, hm, ih]
    · by_cases hF : getBaudotCode c Mode.FIGS ≠ []
      · by_cases hm : m ≠ Mode.FIGS <;>
          simp [genLoop, modeAfter, hL, hF, hm, ih]
      · simp [genLoop, modeAfter, hL, hF, ih]

theorem genLoop_skip {c : Char} (h1 : getBaudotCode c Mode.LTRS = [])
    (h2 : getBaudotCode c Mode.FIGS = []) (rest : List Char) (m : Mode) :
    genLoop (c :: rest) m = genLoop rest m := by
  simp [genLoop, h1, h2]

theorem frame_inj {a b : List Char} (h : frame a = frame b) : a = b := by
  unfold frame at h
  exact List.append_cancel_left (List.append_cancel_right h)

theorem isShiftFrame_frame_false {code : List Char} (h1 : code ≠ baudotLTRS)
    (h2 : code ≠ baudotFIGS) : isShiftFrame (frame code) = false := by
  unfold isShiftFrame
  rw [decide_eq_false fun h => h1 (frame_inj h),
      decide_eq_false fun h => h2 (frame_inj h)]
  rfl

theorem genLoop_ltrs_no_shift :
    ∀ text : List Char, (∀ c ∈ text, getBaudotCode c Mode.LTRS ≠ []) →
    (genLoop text Mode.LTRS).countP isShiftFrame = 0 := by
  intro text
  induction text with
  | nil => intro _; simp [genLoop]
  | cons c rest ih =>
    intro h
    have hc := h c (List.mem_cons_self _ _)
    have hns := getBaudotCode_ne_shift c Mode.LTRS
    have hsf : isShiftFrame (frame (getBaudotCode c Mode.LTRS)) = false :=
      isShiftFrame_frame_false hns.1 hns.2
    simp [genLoop, hc, List.countP_cons, hsf,
      ih fun x hx => h x (List.mem_cons_of_mem _ hx)]

theorem genLoop_figs_no_shift :
    ∀ text : List Char,
    (∀ c ∈ text, getBaudotCode c Mode.LTRS = [] ∧ getBaudotCode c Mode.FIGS ≠ []) →
    (genLoop text Mode.FIGS).countP isShiftFrame = 0 := by
  intro text
  induction text with
  | nil => intro _; simp [genLoop]
  | cons c rest ih =>
    intro h
    have hc := h c (List.mem_cons_self _ _)
    have hns := getBaudotCode_ne_shift c Mode.FIGS
    have hsf : isShiftFrame (frame (getBaudotCode c Mode.FIGS)) = false :=
      isShiftFrame_frame_false hns.1 hns.2
    simp [genLoop, hc.1, hc.2, List.countP_cons, hsf,
      ih fun x hx => h x (List.mem_cons_of_mem _ hx)]

theorem generateBaudotString_decomp (text : List Char) :
    generateBaudotString text =
      (frame (getBaudotCode '\r' Mode.LTRS) ++ frame (getBaudotCode '\n' Mode.LTRS) ++
        shiftFrame (initialMode text)) ++ (genLoop text (initialMode text)).flatten := by
  simp [generateBaudotString, genFrames, List.flatten_cons, List.append_assoc]

theorem flatten_length8 :
    ∀ L : List (List Char), (∀ s ∈ L, s.length = 8) → L.flatten.length = 8 * L.length := by
  intro L
  induction L with
  | nil => intro _; simp
  | cons s L' ih =>
    intro h
    simp only [List.flatten_cons, List.length_append, List.length_cons,
      h s (List.mem_cons_self _ _), ih fun x hx => h x (List.mem_cons_of_mem _ hx)]
    ring

/-- The characters of the Letters (`"LTRS"`) table, in the order of the
source's `case` labels. -/
def lettersChars : List Char :=
  ['A', 'B', 'C', 'D', 'E', 'F', 'G', 'H', 'I', 'J', 'K', 'L', 'M',
   'N', 'O', 'P', 'Q', 'R', 'S', 'T', 'U', 'V', 'W', 'X', 'Y', 'Z',
   '\n', ' ', '\r']

/-- The characters of the Figures (`"FIGS"`) table, in the order of the
source's `case` labels. -/
def figuresChars : List Char :=
  ['-', '?', ':', '$', '3', '!', '&', '#', '8', '4', '(', ')', '.',
   ',', '9', '0', '1', '\'', '5', '7', ';', '2', '/', '6', '"',
   '\n', ' ', '\r']

/-- Conceptual decoder: the Letters-table character whose code matches. -/
def decodeLTRS (code : List Char) : Option Char :=
  lettersChars.find? fun c => getBaudotCode c Mode.LTRS == code

/-- C1 (counterexample): in the message `"@A"` the first character that
resolves in either Baudot table is `'A'`, a Letters-table member (`'@'`
resolves in neither table), yet the transmitted shift symbol is the
Figures one, because the initial mode is chosen from `text[0]` alone. -/
theorem preamble_shift_cex :
    getBaudotCode '@' Mode.LTRS = [] ∧ getBaudotCode '@' Mode.FIGS = [] ∧
    getBaudotCode 'A' Mode.LTRS ≠ [] ∧
    (generateBaudotString ['@', 'A']).take 24 =
      frame (getBaudotCode '\r' Mode.LTRS) ++ frame (getBaudotCode '\n' Mode.LTRS) ++
        frame baudotFIGS ∧
    frame baudotFIGS ≠ frame baudotLTRS := by decide

/-- C1 (amended): for every message the bit string starts with the CR
framed symbol, the LF framed symbol, and exactly one shift framed symbol,
and that shift symbol is the Letters one exactly when the character at
index 0 of the message (NUL for the empty message) resolves in the
Letters table, the Figures one otherwise. -/
theorem preamble_structure (text : List Char) :
    (generateBaudotString text).take 24 =
      frame (getBaudotCode '\r' Mode.LTRS) ++ frame (getBaudotCode '\n' Mode.LTRS) ++
        shiftFrame (initialMode text) ∧
    (initialMode text = Mode.LTRS ↔ getBaudotCode (headChar text) Mode.LTRS ≠ []) ∧
    isShiftFrame (shiftFrame (initialMode text)) = true ∧
    isShiftFrame (frame (getBaudotCode '\r' Mode.LTRS)) = false ∧
    isShiftFrame (frame (getBaudotCode '\n' Mode.LTRS)) = false := by
  refine ⟨?_, ?_, ?_, by decide, by decide⟩
  · rw [generateBaudotString_decomp]
    refine List.take_left' ?_
    cases initialMode text <;> decide
  · unfold initialMode
    by_cases h : getBaudotCode (headChar text) Mode.LTRS ≠ [] <;> simp [h]
  · cases initialMode text <;> decide

/-- C2: the Letters table is injective on its characters, and CR, LF and
space resolve identically in both tables, but the Figures table is NOT
injective: the distinct characters `'4'` and `'\''` both map to `01010`
(ITA2 assigns `11010` to the apostrophe, so the code's entry is a slip). -/
theorem baudot_figs_injectivity_bug :
    (lettersChars.map fun c => getBaudotCode c Mode.LTRS).Nodup ∧
    ¬(figuresChars.map fun c => getBaudotCode c Mode.FIGS).Nodup ∧
    getBaudotCode '4' Mode.FIGS = getBaudotCode '\'' Mode.FIGS ∧
    ('4' : Char) ≠ '\'' ∧
    getBaudotCode '4' Mode.FIGS = ['0', '1', '0', '1', '0'] ∧
    getBaudotCode '\r' Mode.LTRS = getBaudotCode '\r' Mode.FIGS ∧
    getBaudotCode '\n' Mode.LTRS = getBaudotCode '\n' Mode.FIGS ∧
    getBaudotCode ' ' Mode.LTRS = getBaudotCode ' ' Mode.FIGS := by decide

/-- C4 (counterexample): every character of the message `"\r1"` is a
Figures-table member, yet its bit string contains two shift framed
symbols: `'\r'` also resolves in the Letters table, so the initial mode is
Letters and a Figures shift is inserted before `'1'`. -/
theorem single_table_one_shift_cex :
    getBaudotCode '\r' Mode.FIGS ≠ [] ∧ getBaudotCode '1' Mode.FIGS ≠ [] ∧
    (chunks8 (generateBaudotString ['\r', '1'])).countP isShiftFrame = 2 := by decide

/-- C4 (amended): for a message all of whose characters resolve in the
Letters table, or all of whose characters resolve in the Figures table and
none in the Letters table, the bit string contains exactly one shift
framed symbol in total, and none after the initial one. -/
theorem single_table_one_shift (text : List Char)
    (h : (∀ c ∈ text, getBaudotCode c Mode.LTRS ≠ []) ∨
         (∀ c ∈ text, getBaudotCode c Mode.LTRS = [] ∧ getBaudotCode c Mode.FIGS ≠ [])) :
    (chunks8 (generateBaudotString text)).countP isShiftFrame = 1 ∧
    ((chunks8 (generateBaudotString text)).drop 3).countP isShiftFrame = 0 := by
  rw [chunks8_generateBaudotString]
  have hloop : (genLoop text (initialMode text)).countP isShiftFrame = 0 := by
    rcases h with h | h
    · cases text with
      | nil => simp [genLoop]
      | cons c rest =>
        have hc := h c (List.mem_cons_self _ _)
        have hm : initialMode (c :: rest) = Mode.LTRS := by
          simp [initialMode, headChar, hc]
        rw [hm]
        exact genLoop_ltrs_no_shift _ h
    · cases text with
      | nil => simp [genLoop]
      | cons c rest =>
        have hc := (h c (List.mem_cons_self _ _)).1
        have hm : initialMode (c :: rest) = Mode.FIGS := by
          simp [initialMode, headChar, hc]
        rw [hm]
        exact genLoop_figs_no_shift _ h
  have h1 : isShiftFrame (frame (getBaudotCode '\r' Mode.LTRS)) = false := by decide
  have h2 : isShiftFrame (frame (getBaudotCode '\n' Mode.LTRS)) = false := by decide
  have h3 : isShiftFrame (shiftFrame (initialMode text)) = true := by
    cases initialMode text <;> decide
  constructor
  · simp [genFrames, List.countP_cons, h1, h2, h3, hloop]
  · simp [genFrames, hloop]

theorem single_table_one_shift_witness :
    ((∀ c ∈ (['H', 'I'] : List Char), getBaudotCode c Mode.LTRS ≠ []) ∨
     (∀ c ∈ (['H', 'I'] : List Char),
        getBaudotCode c Mode.LTRS = [] ∧ getBaudotCode c Mode.FIGS ≠ [])) ∧
    ((chunks8 (generateBaudotString ['H', 'I'])).countP isShiftFrame = 1 ∧
     ((chunks8 (generateBaudotString ['H', 'I'])).drop 3).countP isShiftFrame = 0) :=
  ⟨Or.inl (by decide), single_table_one_shift ['H', 'I'] (Or.inl (by decide))⟩

/-- C5: a character absent from both Baudot tables contributes no symbol to
the bit string and raises no error: the encoding loop emits nothing for it
in any mode, and removing it from the message leaves the whole output
unchanged (the character at index 0 is kept fixed, since it alone selects
the initial shift state); encoding is a total function, so no error is
raised. -/
theorem unencodable_char_skipped (pre suf : List Char) (c : Char)
    (h1 : getBaudotCode c Mode.LTRS = []) (h2 : getBaudotCode c Mode.FIGS = [])
    (hpre : pre ≠ []) :
    (∀ m rest, genLoop (c :: rest) m = genLoop rest m) ∧
    generateBaudotString (pre ++ c :: suf) = generateBaudotString (pre ++ suf) := by
  refine ⟨fun m rest => genLoop_skip h1 h2 rest m, ?_⟩
  have hhead : headChar (pre ++ c :: suf) = headChar (pre ++ suf) := by
    cases pre with
    | nil => exact absurd rfl hpre
    | cons p ps => simp [headChar]
  have hmode : initialMode (pre ++ c :: suf) = initialMode (pre ++ suf) := by
    unfold initialMode
    rw [hhead]
  unfold generateBaudotString genFrames
  rw [hmode, genLoop_append pre (c :: suf), genLoop_skip h1 h2,
    genLoop_append pre suf]

theorem unencodable_char_skipped_witness :
    (getBaudotCode '@' Mode.LTRS = [] ∧ getBaudotCode '@' Mode.FIGS = [] ∧
      (['A'] : List Char) ≠ []) ∧
    ((∀ m rest, genLoop ('@' :: rest) m = genLoop rest m) ∧
     generateBaudotString (['A'] ++ '@' :: ['B']) = generateBaudotString (['A'] ++ ['B'])) :=
  ⟨⟨by decide, by decide, by decide⟩,
    unencodable_char_skipped ['A'] ['B'] '@' (by decide) (by decide) (by decide)⟩

/-- C6: the bit string's length is a multiple of 8, and every 8-bit group
is a framed symbol: a start bit `0`, five data bits that are a shift code
or a table code, and two stop bits `11`. -/
theorem framed_symbol_shape (text : List Char) (s : List Char)
    (hs : s ∈ chunks8 (generateBaudotString text)) :
    (generateBaudotString text).length % 8 = 0 ∧ s.length = 8 ∧
    ∃ code, code.length = 5 ∧ s = frame code ∧
      (code = baudotLTRS ∨ code = baudotFIGS ∨ ∃ c m, code = getBaudotCode c m) := by
  rw [chunks8_generateBaudotString] at hs
  obtain ⟨code, hlen, heq, hor⟩ := genFrames_mem_shape text hs
  refine ⟨?_, ?_, code, hlen, heq, hor⟩
  · unfold generateBaudotString
    rw [flatten_length8 _ fun x hx => genFrames_mem_length8 text hx]
    exact Nat.mul_mod_right 8 _
  · rw [heq, frame_length, hlen]

theorem framed_symbol_shape_witness :
    frame (getBaudotCode '\r' Mode.LTRS) ∈ chunks8 (generateBaudotString ['A']) ∧
    ((generateBaudotString ['A']).length % 8 = 0 ∧
     (frame (getBaudotCode '\r' Mode.LTRS)).length = 8 ∧
     ∃ code, code.length = 5 ∧ frame (getBaudotCode '\r' Mode.LTRS) = frame code ∧
       (code = baudotLTRS ∨ code = baudotFIGS ∨ ∃ c m, code = getBaudotCode c m)) :=
  ⟨by decide,
    framed_symbol_shape ['A'] (frame (getBaudotCode '\r' Mode.LTRS)) (by decide)⟩

/-- C7: the bit string for `"HELLO"` is eight framed symbols; after the
CR/LF/Letters-shift preamble come five symbols, each with start bit `0`
and stop bits `11`, whose middle five bits decode through the Letters
table back to `H`, `E`, `L`, `L`, `O` in order. -/
theorem hello_roundtrip :
    (chunks8 (generateBaudotString ['H', 'E', 'L', 'L', 'O'])).length = 8 ∧
    (chunks8 (generateBaudotString ['H', 'E', 'L', 'L', 'O'])).take 3 =
      [frame (getBaudotCode '\r' Mode.LTRS), frame (getBaudotCode '\n' Mode.LTRS),
       frame baudotLTRS] ∧
    ((chunks8 (generateBaudotString ['H', 'E', 'L', 'L', 'O'])).drop 3).map
        (fun s => (s.take 1, s.drop 6, decodeLTRS ((s.drop 1).take 5))) =
      [(['0'], ['1', '1'], some 'H'),
       (['0'], ['1', '1'], some 'E'),
       (['0'], ['1', '1'], some 'L'),
       (['0'], ['1', '1'], some 'L'),
       (['0'], ['1', '1'], some 'O')] := by decide

/-- C10: for the empty message `text[0]` reads as NUL, which is absent from
the Letters table, so the initial mode is Figures and the output is
exactly the 24-bit CR/LF/Figures-shift preamble. -/
theorem empty_message_preamble :
    headChar [] = Char.ofNat 0 ∧
    getBaudotCode (Char.ofNat 0) Mode.LTRS = [] ∧
    initialMode [] = Mode.FIGS ∧
    generateBaudotString [] =
      frame (getBaudotCode '\r' Mode.LTRS) ++ frame (getBaudotCode '\n' Mode.LTRS) ++
        frame baudotFIGS ∧
    (generateBaudotString []).length = 24 := by decide

/-- DDS phase-increment snapshot from the `AT+send` branch of `exec`:
`uint32_t incHigh = (uint32_t)((setParams.high * 4294967296.0) / SAMPLE_RATE);`
(and the same for `setParams.low`), with `SAMPLE_RATE = 80000.0`.  For any
frequency below 2^21 the product `freq * 2^32` is exactly representable in
a C `double`, the division by `80000.0` is correctly rounded, and the exact
quotient `freq * 2^25 / 625` is either an integer (exactly representable)
or at least `1/625` away from one — far above the double rounding error —
so the truncating cast equals the integer floor division used here. -/
def phaseIncrementOf (freq : Nat) : Nat := freq * 4294967296 / 80000

/-- Modelled from the spec: `round(frequency * 2^32 / sampleRate)` at
sample rate 80000, rounding half up. -/
def roundIncrementOf (freq : Nat) : Nat := (freq * 4294967296 + 40000) / 80000

/-- C3 (counterexample): at the configured high frequency 2125 Hz and
sample rate 80000, the code's truncating conversion yields 114085068,
which is not `round(2125 * 2^32 / 80000) = 114085069` (the exact quotient
is 114085068.8). -/
theorem phase_increment_round_cex :
    phaseIncrementOf 2125 = 114085068 ∧
    roundIncrementOf 2125 = 114085069 ∧
    phaseIncrementOf 2125 ≠ roundIncrementOf 2125 := by decide

/-- C3 (amended): the two phase increments snapshotted at the start of a
send are the truncations (floor), not the roundings, of
`frequency * 2^32 / sampleRate`: the increment times the sample rate falls
within one sample-rate unit at or below `frequency * 2^32` (so the
synthesized frequency is within one DDS quantization step below the
target), and at the configured 2125 Hz the increment is 114085068, one
below the rounded value. -/
theorem phase_increment_floor (freq : Nat) :
    phaseIncrementOf freq * 80000 ≤ freq * 4294967296 ∧
    freq * 4294967296 < phaseIncrementOf freq * 80000 + 80000 ∧
    phaseIncrementOf 2125 = 114085068 := by
  unfold phaseIncrementOf
  refine ⟨Nat.div_mul_le_self _ _, ?_, by decide⟩
  have h := Nat.div_add_mod (freq * 4294967296) 80000
  have h2 : freq * 4294967296 % 80000 < 80000 := Nat.mod_lt _ (by omega)
  omega

/-- The globals touched by the EEPROM playback path:
`ee_sample`, `consecutive_ff_count`, `playback_active`, the EEPROM
chip-select line driven low by `start_eeprom_stream` and high on stop,
the full `TIMSK1` byte, `saved_TIMSK1`, and the `OCIE2A` bit of `TIMSK2`
(the only Timer2 bit the playback path manipulates). -/
structure PlayState : Type where
  ee_sample : Nat
  consecutive_ff_count : Nat
  playback_active : Bool
  ee_cs_low : Bool
  timsk1 : Nat
  saved_TIMSK1 : Nat
  ocie2a : Bool
deriving DecidableEq, Repr

/-- One firing of `ISR(TIMER2_COMPA_vect)`.  `next` is the byte clocked in
from the EEPROM this tick (the DAC write of the previous sample is pure
output and not part of the state).  The source stores
`if (ee_sample == 0xFF) consecutive_ff_count++; else consecutive_ff_count = 0;`
after `ee_sample = next`, so the count is of `next`; if it reaches
`FF_THRESHOLD` (250) the handler raises chip select, clears `OCIE2A`,
clears `playback_active` and restores `TIMSK1` from `saved_TIMSK1`. -/
def isrStep (next : Nat) (s : PlayState) : PlayState :=
  if 250 ≤ (if next = 255 then s.consecutive_ff_count + 1 else 0) then
    { ee_sample := next,
      consecutive_ff_count := if next = 255 then s.consecutive_ff_count + 1 else 0,
      playback_active := false, ee_cs_low := false,
      timsk1 := s.saved_TIMSK1, saved_TIMSK1 := s.saved_TIMSK1, ocie2a := false }
  else
    { s with
      ee_sample := next,
      consecutive_ff_count := if next = 255 then s.consecutive_ff_count + 1 else 0 }

/-- The `AT+play` branch of `exec` up to enabling the Timer2 interrupt:
`start_eeprom_stream` pulls chip select low, the first byte is pre-loaded
into `ee_sample`, the counter is cleared, `TIMSK1` is saved and zeroed,
`OCIE2A` is set and `playback_active` raised. -/
def playStart (firstByte : Nat) (s : PlayState) : PlayState :=
  { ee_sample := firstByte, consecutive_ff_count := 0, playback_active := true,
    ee_cs_low := true, timsk1 := 0, saved_TIMSK1 := s.timsk1, ocie2a := true }

/-- Runs the playback interrupt over a byte stream; a byte is consumed only
while the Timer2 compare interrupt (`OCIE2A`) is enabled. -/
def runPlayback : List Nat → PlayState → PlayState
  | [], s => s
  | b :: rest, s => if s.ocie2a then runPlayback rest (isrStep b s) else s

/-- A whole `AT+play` over a byte stream: pre-load the first byte, then run
the interrupt over the remainder. -/
def playRun (stream : List Nat) (s : PlayState) : PlayState :=
  match stream with
  | [] => s
  | b :: rest => runPlayback rest (playStart b s)

/-- What the stop branch of the playback interrupt establishes: playback
flag cleared, chip select released, `TIMSK1` restored from the saved copy,
playback timer disabled. -/
def StoppedPost (s : PlayState) : Prop :=
  s.playback_active = false ∧ s.ee_cs_low = false ∧
  s.timsk1 = s.saved_TIMSK1 ∧ s.ocie2a = false

theorem isrStep_saved (b : Nat) (s : PlayState) :
    (isrStep b s).saved_TIMSK1 = s.saved_TIMSK1 := by
  unfold isrStep
  split <;> (try split) <;> rfl

/-- If the interrupt leaves `OCIE2A` cleared although it was set on entry,
the stop branch ran, so the whole stop postcondition holds. -/
theorem isrStep_off_stopped {b : Nat} {s : PlayState} (hs : s.ocie2a = true)
    (h : (isrStep b s).ocie2a = false) : StoppedPost (isrStep b s) := by
  unfold isrStep at h ⊢
  by_cases hth : 250 ≤ (if b = 255 then s.consecutive_ff_count + 1 else 0)
  · rw [if_pos hth] at h ⊢
    exact ⟨rfl, rfl, rfl, rfl⟩
  · rw [if_neg hth] at h
    have hcontra : s.ocie2a = false := h
    rw [hs] at hcontra
    cases hcontra

theorem runPlayback_saved :
    ∀ (l : List Nat) (s : PlayState),
    (runPlayback l s).saved_TIMSK1 = s.saved_TIMSK1 := by
  intro l
  induction l with
  | nil => intro s; rfl
  | cons b rest ih =>
    intro s
    unfold runPlayback
    split
    · rw [ih, isrStep_saved]
    · rfl

theorem runPlayback_stopped {s : PlayState} (h : s.ocie2a = false) :
    ∀ l : List Nat, runPlayback l s = s := by
  intro l
  cases l with
  | nil => rfl
  | cons b rest => simp [runPlayback, h]

theorem runPlayback_append :
    ∀ (xs ys : List Nat) (s : PlayState),
    runPlayback (xs ++ ys) s = runPlayback ys (runPlayback xs s) := by
  intro xs
  induction xs with
  | nil => intro ys s; rfl
  | cons b rest ih =>
    intro ys s
    by_cases h : s.ocie2a = true
    · simp [runPlayback, h, ih]
    · have h' : s.ocie2a = false := by simpa using h
      simp [runPlayback_stopped h']

/-- Once the interrupt has turned itself off, the full stop postcondition
holds: the only way a run that starts enabled ends disabled is through the
stop branch. -/
theorem runPlayback_off_post :
    ∀ (l : List Nat) (s : PlayState), s.ocie2a = true →
    (runPlayback l s).ocie2a = false → StoppedPost (runPlayback l s) := by
  intro l
  induction l with
  | nil =>
    intro s hs h
    simp only [runPlayback] at h
    rw [hs] at h
    cases h
  | cons b rest ih =>
    intro s hs h
    rw [runPlayback, if_pos hs] at h ⊢
    by_cases h2 : (isrStep b s).ocie2a = true
    · exact ih _ h2 h
    · have h2' : (isrStep b s).ocie2a = false := by simpa using h2
      rw [runPlayback_stopped h2'] at h ⊢
      exact isrStep_off_stopped hs h2'

/-- Consuming a run of `0xFF` bytes long enough to push the counter to the
threshold stops playback with the full stop postcondition. -/
theorem runPlayback_ff_stops :
    ∀ (n : Nat) (s : PlayState), s.ocie2a = true →
    s.consecutive_ff_count < 250 → 250 ≤ n + s.consecutive_ff_count →
    StoppedPost (runPlayback (List.replicate n 255) s) := by
  intro n
  induction n with
  | zero => intro s _ h1 h2; omega
  | succ n ih =>
    intro s hs h1 h2
    rw [List.replicate_succ, runPlayback, if_pos hs]
    by_cases hth : 250 ≤ s.consecutive_ff_count + 1
    · have hstop : isrStep 255 s =
        { ee_sample := 255, consecutive_ff_count := s.consecutive_ff_count + 1,
          playback_active := false, ee_cs_low := false,
          timsk1 := s.saved_TIMSK1, saved_TIMSK1 := s.saved_TIMSK1,
          ocie2a := false } := by
        unfold isrStep
        rw [if_pos rfl, if_pos (by simpa using hth)]
      rw [hstop, runPlayback_stopped rfl]
      exact ⟨rfl, rfl, rfl, rfl⟩
    · have hrun : isrStep 255 s =
        { s with
          ee_sample := 255,
          consecutive_ff_count := s.consecutive_ff_count + 1 } := by
        unfold isrStep
        rw [if_pos rfl, if_neg (by simpa using hth)]
      rw [hrun]
      exact ih _ hs (show s.consecutive_ff_count + 1 < 250 by omega)
        (show 250 ≤ n + (s.consecutive_ff_count + 1) by omega)

/-- A concrete pre-playback state: idle device with the RTTY timer
interrupt enabled (`TIMSK1` holds the `OCIE1A` bit, value 2). -/
def idleState : PlayState :=
  { ee_sample := 0, consecutive_ff_count := 0, playback_active := false,
    ee_cs_low := false, timsk1 := 2, saved_TIMSK1 := 0, ocie2a := false }

/-- C8 (counterexample): a stream of exactly 250 `0xFF` bytes and nothing
else.  The first byte is pre-buffered by the `AT+play` sequence before the
run counter is cleared, so consuming the whole stream — including the step
that consumes the 250th consecutive `0xFF` byte — leaves the counter at
249: playback is still active, the playback timer still enabled, `TIMSK1`
not restored. -/
theorem playback_preload_cex :
    (playRun (List.replicate 250 255) idleState).playback_active = true ∧
    (playRun (List.replicate 250 255) idleState).ocie2a = true ∧
    (playRun (List.replicate 250 255) idleState).consecutive_ff_count = 249 ∧
    (playRun (List.replicate 250 255) idleState).timsk1 = 0 := by decide

/-- C8 (amended): the pre-buffered first stream byte is never counted, so
for every byte stream consisting of arbitrary data, then one non-`0xFF`
byte, then at least 250 consecutive `0xFF` bytes, playback reaches the
stop condition no later than the step consuming the 250th of those `0xFF`
bytes (whatever bytes follow them are irrelevant), and at that point the
memory chip select is released, the playback timer interrupt is disabled,
the active flag is cleared, and `TIMSK1` is restored to exactly the value
saved when playback started.  (A stream whose very first byte already
begins the `0xFF` run needs 251 of them, as the counterexample shows.) -/
theorem playback_termination (data rest : List Nat) (b : Nat) (s0 : PlayState)
    (hb : b ≠ 255) :
    StoppedPost (playRun (data ++ b :: (List.replicate 250 255 ++ rest)) s0) ∧
    (playRun (data ++ b :: (List.replicate 250 255 ++ rest)) s0).timsk1 = s0.timsk1 := by
  cases data with
  | nil =>
    simp only [List.nil_append, playRun]
    rw [runPlayback_append]
    have h3 := runPlayback_ff_stops 250 (playStart b s0) rfl
      (show (0 : Nat) < 250 by omega) (show 250 ≤ 250 + 0 by omega)
    rw [runPlayback_stopped h3.2.2.2]
    refine ⟨h3, ?_⟩
    rw [h3.2.2.1, runPlayback_saved]
    rfl
  | cons d ds =>
    simp only [List.cons_append, playRun]
    have hsplit : ds ++ b :: (List.replicate 250 255 ++ rest) =
        (ds ++ [b]) ++ (List.replicate 250 255 ++ rest) :=
      (List.append_assoc ds [b] (List.replicate 250 255 ++ rest)).symm
    rw [hsplit, runPlayback_append, runPlayback_append]
    have hsaved2 : (runPlayback (ds ++ [b]) (playStart d s0)).saved_TIMSK1 = s0.timsk1 := by
      rw [runPlayback_saved]
      rfl
    by_cases hoc : (runPlayback (ds ++ [b]) (playStart d s0)).ocie2a = true
    · have hcnt : (runPlayback (ds ++ [b]) (playStart d s0)).consecutive_ff_count = 0 := by
        rw [runPlayback_append] at hoc ⊢
        by_cases hoc3 : (runPlayback ds (playStart d s0)).ocie2a = true
        · simp [runPlayback, hoc3, isrStep, hb]
        · have h3f : (runPlayback ds (playStart d s0)).ocie2a = false := by
            simpa using hoc3
          rw [runPlayback_stopped h3f] at hoc
          rw [h3f] at hoc
          cases hoc
      have h3 := runPlayback_ff_stops 250 _ hoc
        (by rw [hcnt]; omega) (by rw [hcnt])
      rw [runPlayback_stopped h3.2.2.2]
      refine ⟨h3, ?_⟩
      rw [h3.2.2.1, runPlayback_saved, hsaved2]
    · have hf : (runPlayback (ds ++ [b]) (playStart d s0)).ocie2a = false := by
        simpa using hoc
      have hpost := runPlayback_off_post (ds ++ [b]) (playStart d s0) rfl hf
      rw [runPlayback_stopped hf, runPlayback_stopped hf]
      refine ⟨hpost, ?_⟩
      rw [hpost.2.2.1, hsaved2]

theorem playback_termination_witness :
    (0 : Nat) ≠ 255 ∧
    (StoppedPost (playRun ([1, 2] ++ 0 :: (List.replicate 250 255 ++ [7])) idleState) ∧
     (playRun ([1, 2] ++ 0 :: (List.replicate 250 255 ++ [7])) idleState).timsk1 =
       idleState.timsk1) :=
  ⟨by decide, playback_termination [1, 2] [7] 0 idleState (by decide)⟩

/-- Control phases of the transport arbiter.  `idle` is the main loop with
the RTTY DDS timer in its normal state; `rttyActive` is a send in progress
(the send path only writes `phaseIncrement`, never the timer masks);
`playSaved` is the point inside the `AT+play` branch after
`saved_TIMSK1 = TIMSK1; TIMSK1 = 0;` and before `TIMSK2 |= (1 << OCIE2A)`;
`playbackActive` is playback with Timer2 running; `playDisabled` is the
point inside the stop branch of the playback interrupt after
`TIMSK2 &= ~(1 << OCIE2A)` and before `TIMSK1 = saved_TIMSK1`. -/
inductive ArbPhase : Type
  | idle : ArbPhase
  | rttyActive : ArbPhase
  | playSaved : ArbPhase
  | playbackActive : ArbPhase
  | playDisabled : ArbPhase
deriving DecidableEq, Repr

/-- Timer-ownership state of the system: the arbiter phase, the `OCIE1A`
bit of `TIMSK1` (the 80 kHz DDS interrupt), the `OCIE2A` bit of `TIMSK2`
(the 8 kHz playback interrupt), and the saved copy of the RTTY bit. -/
structure ArbState : Type where
  phase : ArbPhase
  rttyEn : Bool
  playEn : Bool
  savedRtty : Bool
deriving DecidableEq, Repr

/-- State after `setup()`: `TIMSK1 |= (1 << OCIE1A)` has run, Timer2's
compare interrupt is clear, `saved_TIMSK1` is zero-initialised. -/
def arbInit : ArbState :=
  { phase := ArbPhase.idle, rttyEn := true, playEn := false, savedRtty := false }

/-- One transition of the transport arbiter, following the source order:
a send only toggles the phase (it never touches the timer masks); the
`AT+play` branch first saves and clears `TIMSK1`, then sets `OCIE2A`; the
playback interrupt's stop branch first clears `OCIE2A`, then restores
`TIMSK1` from the saved copy. -/
inductive ArbStep : ArbState → ArbState → Prop
  | sendStart (s : ArbState) : s.phase = ArbPhase.idle →
      ArbStep s { s with phase := ArbPhase.rttyActive }
  | sendEnd (s : ArbState) : s.phase = ArbPhase.rttyActive →
      ArbStep s { s with phase := ArbPhase.idle }
  | playSave (s : ArbState) : s.phase = ArbPhase.idle →
      ArbStep s { phase := ArbPhase.playSaved, rttyEn := false,
                  playEn := s.playEn, savedRtty := s.rttyEn }
  | playEnable (s : ArbState) : s.phase = ArbPhase.playSaved →
      ArbStep s { s with phase := ArbPhase.playbackActive, playEn := true }
  | playTick (s : ArbState) : s.phase = ArbPhase.playbackActive → ArbStep s s
  | playStop (s : ArbState) : s.phase = ArbPhase.playbackActive →
      ArbStep s { s with phase := ArbPhase.playDisabled, playEn := false }
  | playRestore (s : ArbState) : s.phase = ArbPhase.playDisabled →
      ArbStep s { phase := ArbPhase.idle, rttyEn := s.savedRtty,
                  playEn := s.playEn, savedRtty := s.savedRtty }

/-- States reachable from the post-`setup()` state. -/
inductive ArbReachable : ArbState → Prop
  | init : ArbReachable arbInit
  | step {s t : ArbState} : ArbReachable s → ArbStep s t → ArbReachable t

/-- The timer-ownership invariant: the playback interrupt can only be
enabled in the `playbackActive` phase, and the RTTY interrupt is disabled
throughout the playback phases. -/
def TimerInv (s : ArbState) : Prop :=
  match s.phase with
  | ArbPhase.idle => s.playEn = false
  | ArbPhase.rttyActive => s.playEn = false
  | ArbPhase.playSaved => s.rttyEn = false ∧ s.playEn = false
  | ArbPhase.playbackActive => s.rttyEn = false
  | ArbPhase.playDisabled => s.rttyEn = false ∧ s.playEn = false

theorem timerInv_step {s t : ArbState} (hs : TimerInv s) (h : ArbStep s t) :
    TimerInv t := by
  cases h with
  | sendStart hp =>
    unfold TimerInv at hs ⊢
    rw [hp] at hs
    simpa using hs
  | sendEnd hp =>
    unfold TimerInv at hs ⊢
    rw [hp] at hs
    simpa using hs
  | playSave hp =>
    unfold TimerInv at hs ⊢
    rw [hp] at hs
    exact ⟨rfl, hs⟩
  | playEnable hp =>
    unfold TimerInv at hs ⊢
    rw [hp] at hs
    simpa using hs.1
  | playTick hp => exact hs
  | playStop hp =>
    unfold TimerInv at hs ⊢
    rw [hp] at hs
    exact ⟨hs, rfl⟩
  | playRestore hp =>
    unfold TimerInv at hs ⊢
    rw [hp] at hs
    exact hs.2

/-- C9: in every reachable state of the arbiter at most one of the two
periodic interrupt sources is enabled; playback start disables the RTTY
timer (saving its state) strictly before enabling the playback timer, and
playback completion disables the playback timer strictly before restoring
the RTTY timer, so the exclusion holds at every intermediate point. -/
theorem single_periodic_source (s : ArbState) (h : ArbReachable s) :
    ¬(s.rttyEn = true ∧ s.playEn = true) := by
  have hinv : TimerInv s := by
    induction h with
    | init => exact rfl
    | step hr hstep ih => exact timerInv_step ih hstep
  rintro ⟨hr, hp⟩
  unfold TimerInv at hinv
  cases hph : s.phase <;> rw [hph] at hinv <;> simp_all

/-- A reachable playback state: `AT+play` has saved and cleared `TIMSK1`
and enabled the playback timer. -/
def arbPlaying : ArbState :=
  { phase := ArbPhase.playbackActive, rttyEn := false, playEn := true,
    savedRtty := true }

theorem single_periodic_source_witness :
    ArbReachable arbPlaying ∧ ¬(arbPlaying.rttyEn = true ∧ arbPlaying.playEn = true) :=
  ⟨ArbReachable.step (ArbReachable.step ArbReachable.init
      (ArbStep.playSave arbInit rfl)) (ArbStep.playEnable _ rfl),
   single_periodic_source arbPlaying
     (ArbReachable.step (ArbReachable.step ArbReachable.init
       (ArbStep.playSave arbInit rfl)) (ArbStep.playEnable _ rfl))⟩
